import Mathlib

/-!
Verification of the fp-ts-exploration repository.

Shallow embedding conventions:
* The TypeScript `number` type is an IEEE-754 binary64 double.  Doubles are
  carried as their exact rational values (every finite double is a
  rational), and where a claim is about the arithmetic itself (the
  semigroup example) the double operations are modelled exactly as the
  exact rational operation followed by `roundB64`, the binary64 rounding
  (round to nearest, ties to even).  Claims whose content is comparisons
  or structure (validation thresholds, composition, equality) use the
  rational values directly, on which the double and exact readings agree.
* fp-ts's `Either<E, A>` is modelled by the two-constructor inductive
  `FpTs.Either` below; `E.left`, `E.right`, `E.map` translate directly.
* `pipe(x, f, g)` is translated to `g (f x)` and `flow(f, g)` to
  `fun x => g (f x)`.
* A JavaScript object field that is absent (hence `undefined`, falsy) is
  modelled as `false` for boolean fields and `none` for optional fields.
* All definitions are inside the namespace `FpTs` and keep the source names.
-/

namespace FpTs

/-- Either type of fp-ts: `left` is failure, `right` is success. -/
inductive Either (ε α : Type) : Type where
  | left (e : ε)
  | right (a : α)
deriving DecidableEq, Repr

/-- fp-ts `E.map`: apply `f` on the `right` branch, keep `left` as is. -/
def Either.map {ε α β : Type} (f : α → β) : Either ε α → Either ε β
  | .left e => .left e
  | .right a => .right (f a)

/-! ## password-errors.ts -/

/-- PasswordValidationError from password-errors.ts: the closed union of
`MinLengthValidationError` (carrying the `minLength` it enforces) and
`CapitalLetterMissingValidationError`.  The classes are modelled by the
constructors of one inductive; the `_tag` discriminants become the
constructor names. -/
inductive PasswordValidationError : Type where
  | MinLengthValidationError (minLength : ℚ)
  | CapitalLetterMissingValidationError
deriving DecidableEq, Repr

/-- Error type of the JS runtime (as used by `HashFn`), carrying a message. -/
structure JSError : Type where
  message : String
deriving DecidableEq, Repr

/-! ## password.ts -/

/-- Password record from password.ts.  The declared interface has `value`
and `isHashed` (the constant `_tag : 'Password'` discriminant is implicit
in the structure name).  `validate`'s success path additionally spreads an
`isValidated: true` field onto the runtime object, so the runtime shape is
modelled with that extra boolean field; objects built by the constructors
lack it (undefined, i.e. `false`). -/
structure Password : Type where
  value : String
  isHashed : Bool
  isValidated : Bool
deriving DecidableEq, Repr

/-- Constructor `of`: a plain, unhashed password. -/
def of (value : String) : Password :=
  { value := value, isHashed := false, isValidated := false }

/-- Constructor `fromHashed`: a pre-hashed password. -/
def fromHashed (value : String) : Password :=
  { value := value, isHashed := true, isValidated := false }

/-- PasswordSpecification: both fields optional (`none` = absent). -/
structure PasswordSpecification : Type where
  minLength : Option ℚ
  capitalLetterRequired : Option Bool
deriving DecidableEq, Repr

/-- The `= {}` default parameter of `validate`: the empty specification. -/
def emptySpecification : PasswordSpecification :=
  { minLength := none, capitalLetterRequired := none }

/-- Test of the regex `/[A-Z]/` on a string: some character of the string
lies in the range A-Z (code points 65 to 90). -/
def hasCapitalLetter (s : String) : Bool :=
  s.data.any (fun c => 65 ≤ c.toNat && c.toNat ≤ 90)

/-- validate from password.ts.  Destructuring defaults: `minLength = 0`,
`capitalLetterRequired = false`.  Checks min length first, then the
capital-letter rule, and on success returns the spread
`{ ...password, isValidated: true }`. -/
def validate (spec : PasswordSpecification := emptySpecification)
    (password : Password) : Either PasswordValidationError Password :=
  let minLength : ℚ := spec.minLength.getD 0
  let capitalLetterRequired : Bool := spec.capitalLetterRequired.getD false
  if (password.value.length : ℚ) < minLength then
    .left (.MinLengthValidationError minLength)
  else if capitalLetterRequired && !(hasCapitalLetter password.value) then
    .left .CapitalLetterMissingValidationError
  else
    .right { password with isValidated := true }

/-- HashFn from password.ts: a fallible hash function on strings. -/
def HashFn : Type := String → Either JSError String

/-- hash from password.ts: run `hashFn` on the password's value and map the
success onto `{ ...password, value, isHashed: true }`. -/
def hash (hashFn : HashFn) (password : Password) : Either JSError Password :=
  Either.map
    (fun value => { password with value := value, isHashed := true })
    (hashFn password.value)

/-! ## Semigroup example (task-and-either companion file)

The `concat` operations of this example combine TypeScript `number`
values, i.e. IEEE-754 binary64 doubles, so `+` and `*` there are the
exact operations followed by rounding to 53 significant bits, round to
nearest with ties to even.  That rounding is modelled exactly below for
the finite range (values at or beyond `2^1024` overflow to infinity in
the source and are outside the range exercised here). -/

/-- Round a rational to the nearest integer, ties going to the even
integer (the IEEE-754 default rounding direction). -/
def rne (q : ℚ) : ℤ :=
  if q - ⌊q⌋ < 1 / 2 then ⌊q⌋
  else if 1 / 2 < q - ⌊q⌋ then ⌊q⌋ + 1
  else if ⌊q⌋ % 2 = 0 then ⌊q⌋ else ⌊q⌋ + 1

/-- IEEE-754 binary64 rounding of an exact rational: scale so that the
significand occupies 53 bits (clamping the exponent at the subnormal
boundary `-1022`), round to nearest with ties to even, and scale back. -/
def roundB64 (q : ℚ) : ℚ :=
  if q = 0 then 0
  else
    let s : ℤ := 52 - max (Int.log 2 |q|) (-1022)
    (rne (q * (2 : ℚ) ^ s) : ℚ) / (2 : ℚ) ^ s

/-- Binary64 addition on (finite) doubles: exact sum, then rounding. -/
def fadd64 (x y : ℚ) : ℚ :=
  roundB64 (x + y)

/-- Binary64 multiplication on (finite) doubles: exact product, then
rounding. -/
def fmul64 (x y : ℚ) : ℚ :=
  roundB64 (x * y)

/-- fp-ts Semigroup type class: one member, `concat`. -/
structure SemigroupTC (A : Type) : Type where
  concat : A → A → A

/-- semigroupSum: combine two numbers by `+`, i.e. double addition. -/
def semigroupSum : SemigroupTC ℚ :=
  { concat := fun x y => fadd64 x y }

/-- semigroupProduct: combine two numbers by `*`, i.e. double
multiplication. -/
def semigroupProduct : SemigroupTC ℚ :=
  { concat := fun x y => fmul64 x y }

/-- Point struct used by the semigroup and equality examples. -/
structure Point : Type where
  x : ℚ
  y : ℚ
deriving DecidableEq, Repr

/-- semigroupPoint: combine two points componentwise via `semigroupSum`. -/
def semigroupPoint : SemigroupTC Point :=
  { concat := fun p1 p2 =>
      { x := semigroupSum.concat p1.x p2.x
        y := semigroupSum.concat p1.y p2.y } }

/-! ## pipe-and-flow.ts -/

/-- Bill struct from pipe-and-flow.ts. -/
structure Bill : Type where
  beforeTax : ℚ
  afterTax : ℚ
deriving DecidableEq, Repr

/-- JavaScript `Math.round`: round to the nearest integer, halves rounded
up (toward positive infinity), i.e. `⌊x + 1/2⌋`. -/
def mathRound (q : ℚ) : ℤ :=
  ⌊q + 1 / 2⌋

/-- addTip from pipe-and-flow.ts: `afterTax` adds the rounded 15% tip. -/
def addTip (total : ℚ) : Bill :=
  { beforeTax := total, afterTax := total + (mathRound (total * 0.15) : ℚ) }

/-- sumLineItems from pipe-and-flow.ts: reduce with `+` from 0. -/
def sumLineItems (items : List ℚ) : ℚ :=
  items.foldl (fun prev current => prev + current) 0

/-- calculateBillTotal: `pipe(items, sumLineItems, addTip)`. -/
def calculateBillTotal (items : List ℚ) : Bill :=
  addTip (sumLineItems items)

/-- billCalulator (source spelling): returns `flow(sumLineItems, addTip)`. -/
def billCalulator (_ : Unit) : List ℚ → Bill :=
  fun items => addTip (sumLineItems items)

/-! ## eq.ts -/

/-- fp-ts Eq type class: one member, `equals`. -/
structure EqTC (A : Type) : Type where
  equals : A → A → Bool

/-- eqNumber from eq.ts: strict equality `===` on numbers. -/
def eqNumber : EqTC ℚ :=
  { equals := fun x y => decide (x = y) }

/-- fp-ts `contramap` for Eq: compare the images under `f`. -/
def contramap {A B : Type} (f : B → A) (E : EqTC A) : EqTC B :=
  { equals := fun x y => E.equals (f x) (f y) }

/-- User struct from eq.ts. -/
structure User : Type where
  id : ℚ
  name : String
deriving DecidableEq, Repr

/-- eqUser from eq.ts: `contramap((u: User) => u.id)(eqNumber)`. -/
def eqUser : EqTC User :=
  contramap (fun u => u.id) eqNumber

/-! ## Helper lemmas -/

/-- Reducing a list with `+` from an accumulator adds the list's sum. -/
theorem foldl_add_eq_add_sum (l : List ℚ) (a : ℚ) :
    l.foldl (fun prev current => prev + current) a = a + l.sum := by
  induction l generalizing a with
  | nil => simp
  | cons b t ih => simp [ih, add_assoc]

/-- Base-2 integer logarithm from a two-sided power bound. -/
theorem int_log_two_eq {q : ℚ} {e : ℤ} (hq : 0 < q)
    (h1 : (2 : ℚ) ^ e ≤ q) (h2 : q < (2 : ℚ) ^ (e + 1)) :
    Int.log 2 q = e :=
  le_antisymm
    (Int.lt_add_one_iff.mp ((Int.lt_zpow_iff_log_lt (by norm_num) hq).mp h2))
    ((Int.zpow_le_iff_le_log (by norm_num) hq).mp h1)

/-- Evaluation scaffold for `roundB64` at a positive rational whose
binade (the exponent `e` with `2 ^ e ≤ q < 2 ^ (e + 1)`) is known and in
the normal range. -/
theorem roundB64_eq_of_bounds (q : ℚ) (e : ℤ) (hq : 0 < q)
    (hmin : (-1022 : ℤ) ≤ e)
    (h1 : (2 : ℚ) ^ e ≤ q) (h2 : q < (2 : ℚ) ^ (e + 1)) :
    roundB64 q
      = (rne (q * (2 : ℚ) ^ (52 - e)) : ℚ) / (2 : ℚ) ^ (52 - e) := by
  have habs : |q| = q := abs_of_pos hq
  have hlog : Int.log 2 |q| = e := by
    rw [habs]
    exact int_log_two_eq hq h1 h2
  simp only [roundB64, if_neg (ne_of_gt hq), hlog, max_eq_left hmin]

/-- The double denoted by the literal `0.1`. -/
theorem roundB64_point_one : roundB64 (1 / 10) = 3602879701896397 / 2 ^ 55 := by
  rw [roundB64_eq_of_bounds (1 / 10) (-4) (by norm_num) (by norm_num)
    (by norm_num) (by norm_num)]
  norm_num [rne]

/-- The double denoted by the literal `0.2`. -/
theorem roundB64_point_two : roundB64 (2 / 10) = 3602879701896397 / 2 ^ 54 := by
  rw [roundB64_eq_of_bounds (2 / 10) (-3) (by norm_num) (by norm_num)
    (by norm_num) (by norm_num)]
  norm_num [rne]

/-- The double denoted by the literal `0.3`. -/
theorem roundB64_point_three : roundB64 (3 / 10) = 5404319552844595 / 2 ^ 54 := by
  rw [roundB64_eq_of_bounds (3 / 10) (-2) (by norm_num) (by norm_num)
    (by norm_num) (by norm_num)]
  norm_num [rne]

/-- Double addition of `0.1` and `0.2`: the exact sum falls on a tie and
rounds to the even significand, giving `0.30000000000000004`. -/
theorem fadd64_d1_d2 :
    fadd64 (3602879701896397 / 2 ^ 55) (3602879701896397 / 2 ^ 54)
      = 1351079888211149 / 2 ^ 52 := by
  have hsum : (3602879701896397 / 2 ^ 55 + 3602879701896397 / 2 ^ 54 : ℚ)
      = 10808639105689191 / 2 ^ 55 := by norm_num
  simp only [fadd64]
  rw [hsum, roundB64_eq_of_bounds _ (-2) (by norm_num) (by norm_num)
    (by norm_num) (by norm_num)]
  norm_num [rne]

/-- Double addition of `0.30000000000000004` and `0.3`: another tie,
rounding up to `0.6000000000000001`. -/
theorem fadd64_s12_d3 :
    fadd64 (1351079888211149 / 2 ^ 52) (5404319552844595 / 2 ^ 54)
      = 5404319552844596 / 2 ^ 53 := by
  have hsum : (1351079888211149 / 2 ^ 52 + 5404319552844595 / 2 ^ 54 : ℚ)
      = 10808639105689191 / 2 ^ 54 := by norm_num
  simp only [fadd64]
  rw [hsum, roundB64_eq_of_bounds _ (-1) (by norm_num) (by norm_num)
    (by norm_num) (by norm_num)]
  norm_num [rne]

/-- Double addition of `0.2` and `0.3`: the exact sum is exactly `0.5`,
which is representable, so no rounding occurs. -/
theorem fadd64_d2_d3 :
    fadd64 (3602879701896397 / 2 ^ 54) (5404319552844595 / 2 ^ 54)
      = 1 / 2 := by
  have hsum : (3602879701896397 / 2 ^ 54 + 5404319552844595 / 2 ^ 54 : ℚ)
      = 1 / 2 := by norm_num
  simp only [fadd64]
  rw [hsum, roundB64_eq_of_bounds _ (-1) (by norm_num) (by norm_num)
    (by norm_num) (by norm_num)]
  norm_num [rne]

/-- Double addition of `0.1` and `0.5`: rounds down, giving `0.6`. -/
theorem fadd64_d1_half :
    fadd64 (3602879701896397 / 2 ^ 55) (1 / 2)
      = 5404319552844595 / 2 ^ 53 := by
  have hsum : (3602879701896397 / 2 ^ 55 + 1 / 2 : ℚ)
      = 21617278211378381 / 2 ^ 55 := by norm_num
  simp only [fadd64]
  rw [hsum, roundB64_eq_of_bounds _ (-1) (by norm_num) (by norm_num)
    (by norm_num) (by norm_num)]
  norm_num [rne]

/-! ## Claim theorems -/

/-- C1: for every password whose value is strictly shorter than the
configured `minLength`, `validate` returns the min-length error carrying
that `minLength`, regardless of capital-letter content and of
`capitalLetterRequired` — the min-length rule is checked first,
fail-fast. -/
theorem validate_short_password_min_length_error
    (spec : PasswordSpecification) (password : Password)
    (h : (password.value.length : ℚ) < spec.minLength.getD 0) :
    validate spec password
      = .left (.MinLengthValidationError (spec.minLength.getD 0)) := by
  unfold validate
  simp only [if_pos h]

/-- Witness for C1: "abc" against min length 8 with capitals required. -/
theorem validate_short_password_min_length_error_witness :
    (((of "abc").value.length : ℚ)
        < (PasswordSpecification.mk (some 8) (some true)).minLength.getD 0) ∧
    validate ⟨some 8, some true⟩ (of "abc")
      = .left (.MinLengthValidationError 8) :=
  ⟨by decide,
   validate_short_password_min_length_error ⟨some 8, some true⟩ (of "abc")
     (by decide)⟩

/-- C2: for every password meeting both constraints, `validate` returns
`right` of a password whose `value` and `isHashed` fields are those of the
input (the success path only spreads on the `isValidated` tag). -/
theorem validate_success_preserves_password
    (spec : PasswordSpecification) (password : Password)
    (hlen : spec.minLength.getD 0 ≤ (password.value.length : ℚ))
    (hcap : spec.capitalLetterRequired.getD false = true →
      hasCapitalLetter password.value = true) :
    ∃ p2, validate spec password = .right p2 ∧
      p2.value = password.value ∧ p2.isHashed = password.isHashed := by
  refine ⟨{ password with isValidated := true }, ?_, rfl, rfl⟩
  unfold validate
  rw [if_neg (not_lt.mpr hlen)]
  rcases hreq : spec.capitalLetterRequired.getD false with _ | _
  · simp
  · simp [hcap hreq]

/-- Witness for C2: "abcDef" against min length 2 with capitals required. -/
theorem validate_success_preserves_password_witness :
    ((PasswordSpecification.mk (some 2) (some true)).minLength.getD 0
        ≤ ((of "abcDef").value.length : ℚ)) ∧
    ((PasswordSpecification.mk (some 2) (some true)).capitalLetterRequired.getD false
        = true → hasCapitalLetter (of "abcDef").value = true) ∧
    (∃ p2, validate ⟨some 2, some true⟩ (of "abcDef") = .right p2 ∧
      p2.value = (of "abcDef").value ∧ p2.isHashed = (of "abcDef").isHashed) :=
  ⟨by decide, fun _ => by decide,
   validate_success_preserves_password ⟨some 2, some true⟩ (of "abcDef")
     (by decide) (fun _ => by decide)⟩

/-- C3: a password long enough but with no uppercase A-Z character, when
`capitalLetterRequired` is true, yields the capital-letter error. -/
theorem validate_missing_capital_letter_error
    (spec : PasswordSpecification) (password : Password)
    (hlen : spec.minLength.getD 0 ≤ (password.value.length : ℚ))
    (hreq : spec.capitalLetterRequired.getD false = true)
    (hcap : hasCapitalLetter password.value = false) :
    validate spec password = .left .CapitalLetterMissingValidationError := by
  unfold validate
  rw [if_neg (not_lt.mpr hlen)]
  simp [hreq, hcap]

/-- Witness for C3: "abcdef" against min length 2 with capitals required. -/
theorem validate_missing_capital_letter_error_witness :
    ((PasswordSpecification.mk (some 2) (some true)).minLength.getD 0
        ≤ ((of "abcdef").value.length : ℚ)) ∧
    ((PasswordSpecification.mk (some 2) (some true)).capitalLetterRequired.getD false
        = true) ∧
    hasCapitalLetter (of "abcdef").value = false ∧
    validate ⟨some 2, some true⟩ (of "abcdef")
      = .left .CapitalLetterMissingValidationError :=
  ⟨by decide, rfl, by decide,
   validate_missing_capital_letter_error ⟨some 2, some true⟩ (of "abcdef")
     (by decide) rfl (by decide)⟩

/-- C4: when the hash function succeeds on the password's value with
string `s`, `hash` returns `right` of a password whose `value` is `s` and
whose `isHashed` is true. -/
theorem hash_success_sets_isHashed
    (hashFn : HashFn) (password : Password) (s : String)
    (h : hashFn password.value = .right s) :
    ∃ p2, hash hashFn password = .right p2 ∧
      p2.value = s ∧ p2.isHashed = true := by
  refine ⟨{ password with value := s, isHashed := true }, ?_, rfl, rfl⟩
  unfold hash
  rw [h]
  rfl

/-- Witness for C4: a hash function wrapping the value in HASH markers. -/
theorem hash_success_sets_isHashed_witness :
    ((fun v => Either.right (ε := JSError) ("HASH" ++ v ++ "HASH")) (of "23456").value
        = .right "HASH23456HASH") ∧
    (∃ p2, hash (fun v => .right ("HASH" ++ v ++ "HASH")) (of "23456") = .right p2 ∧
      p2.value = "HASH23456HASH" ∧ p2.isHashed = true) :=
  ⟨rfl,
   hash_success_sets_isHashed (fun v => .right ("HASH" ++ v ++ "HASH"))
     (of "23456") "HASH23456HASH" rfl⟩

/-- C5: when the hash function fails on the password's value with error
`e`, `hash` returns exactly `left e`.  The embedding is purely functional:
`hash` only reads `password` and builds new values, so the input password
is unchanged by construction (no mutation on error). -/
theorem hash_failure_propagates
    (hashFn : HashFn) (password : Password) (e : JSError)
    (h : hashFn password.value = .left e) :
    hash hashFn password = .left e := by
  unfold hash
  rw [h]
  rfl

/-- Witness for C5: an always-failing hash function. -/
theorem hash_failure_propagates_witness :
    ((fun _ => Either.left (α := String) (JSError.mk "boom")) (of "abc").value
        = .left ⟨"boom"⟩) ∧
    hash (fun _ => .left ⟨"boom"⟩) (of "abc") = .left ⟨"boom"⟩ :=
  ⟨rfl, hash_failure_propagates (fun _ => .left ⟨"boom"⟩) (of "abc") ⟨"boom"⟩ rfl⟩

/-- C6: the specification defaults are `minLength = 0` and
`capitalLetterRequired = false`, and with the empty (absent)
specification `validate` succeeds on every password. -/
theorem validate_empty_spec_succeeds (password : Password) :
    emptySpecification.minLength.getD 0 = 0 ∧
    emptySpecification.capitalLetterRequired.getD false = false ∧
    validate emptySpecification password
      = .right { password with isValidated := true } := by
  refine ⟨rfl, rfl, ?_⟩
  unfold validate
  rw [if_neg (not_lt.mpr (by positivity))]
  simp [emptySpecification]

/-- C7: `validate` and `hash` are total functions into `Either`: every
call returns either `right`, or `left` of one of the two validation error
variants (for `validate`), or `left` of the hash function's error (for
`hash`) — never an exception. -/
theorem validate_hash_total_either
    (spec : PasswordSpecification) (password : Password) (hashFn : HashFn) :
    (validate spec password
        = .left (.MinLengthValidationError (spec.minLength.getD 0)) ∨
      validate spec password = .left .CapitalLetterMissingValidationError ∨
      validate spec password = .right { password with isValidated := true }) ∧
    ((∃ e, hash hashFn password = .left e) ∨
      (∃ p2, hash hashFn password = .right p2)) := by
  constructor
  · by_cases hlt : (password.value.length : ℚ) < spec.minLength.getD 0
    · refine Or.inl ?_
      unfold validate
      rw [if_pos hlt]
    · by_cases hcap :
        (spec.capitalLetterRequired.getD false && !hasCapitalLetter password.value) = true
      · refine Or.inr (Or.inl ?_)
        unfold validate
        rw [if_neg hlt, if_pos hcap]
      · refine Or.inr (Or.inr ?_)
        unfold validate
        rw [if_neg hlt, if_neg hcap]
  · unfold hash
    rcases hres : hashFn password.value with e | v
    · exact Or.inl ⟨e, rfl⟩
    · exact Or.inr ⟨{ password with value := v, isHashed := true }, rfl⟩

/-- C8 counterexample: `semigroupSum.concat` is not associative on the
doubles denoted by the source literals `0.1`, `0.2`, `0.3`: associating
to the left gives `0.6000000000000001` while associating to the right
gives `0.6`, because binary64 `+` rounds each intermediate sum. -/
theorem semigroupSum_concat_not_assoc_at_tenths :
    ¬ (semigroupSum.concat
        (semigroupSum.concat (roundB64 (1 / 10)) (roundB64 (2 / 10)))
        (roundB64 (3 / 10))
      = semigroupSum.concat (roundB64 (1 / 10))
        (semigroupSum.concat (roundB64 (2 / 10)) (roundB64 (3 / 10)))) := by
  show ¬ (fadd64 (fadd64 (roundB64 (1 / 10)) (roundB64 (2 / 10)))
        (roundB64 (3 / 10))
      = fadd64 (roundB64 (1 / 10))
        (fadd64 (roundB64 (2 / 10)) (roundB64 (3 / 10))))
  rw [roundB64_point_one, roundB64_point_two, roundB64_point_three,
    fadd64_d1_d2, fadd64_s12_d3, fadd64_d2_d3, fadd64_d1_half]
  norm_num

/-- C8 amended: the `concat` operations are the binary64 double
operations — the exact sum or product followed by IEEE-754 rounding,
componentwise for `semigroupPoint` — and the exact operations they round
are associative, so the two associations of any three operands round the
same exact value at the final step; associativity of `concat` itself
fails only through the rounding of intermediate results (see the
counterexample at 0.1, 0.2, 0.3). -/
theorem semigroup_instances_concat_rounded_assoc :
    (∀ x y : ℚ, semigroupSum.concat x y = roundB64 (x + y) ∧
      semigroupProduct.concat x y = roundB64 (x * y)) ∧
    (∀ p q : Point, semigroupPoint.concat p q
        = Point.mk (semigroupSum.concat p.x q.x) (semigroupSum.concat p.y q.y)) ∧
    (∀ x y z : ℚ, roundB64 (x + y + z) = roundB64 (x + (y + z)) ∧
      roundB64 (x * y * z) = roundB64 (x * (y * z))) :=
  ⟨fun _ _ => ⟨rfl, rfl⟩, fun _ _ => rfl,
   fun x y z => ⟨by rw [add_assoc], by rw [mul_assoc]⟩⟩

/-- C9: `calculateBillTotal` and the calculator returned by `billCalulator`
are extensionally equal; the resulting bill's `beforeTax` is the sum of the
line items (0 for the empty list) and its `afterTax` adds the rounded 15%
tip. -/
theorem calculateBillTotal_eq_billCalulator (items : List ℚ) :
    calculateBillTotal items = billCalulator () items ∧
    (calculateBillTotal items).beforeTax = items.sum ∧
    (calculateBillTotal items).afterTax
      = items.sum + (mathRound (items.sum * 0.15) : ℚ) ∧
    (calculateBillTotal []).beforeTax = 0 := by
  have hsum : sumLineItems items = items.sum := by
    simpa using foldl_add_eq_add_sum items 0
  exact ⟨rfl, hsum, by simp [calculateBillTotal, addTip, hsum], rfl⟩

/-- C10: `eqUser.equals` holds exactly when the `id` fields agree, and the
`name` fields have no influence on the verdict. -/
theorem eqUser_equals_iff_id_eq (u1 u2 : User) :
    (eqUser.equals u1 u2 = true ↔ u1.id = u2.id) ∧
    (∀ n1 n2 : String,
      eqUser.equals { u1 with name := n1 } { u2 with name := n2 }
        = eqUser.equals u1 u2) := by
  constructor
  · simp [eqUser, contramap, eqNumber]
  · intro n1 n2
    rfl

end FpTs
